import Mathlib

/-!
# Verification of the holopy scattering core

Shallow embedding of the holopy / scatterpy scattering core:

* `src/scatterpy/scatterer/abstract_scatterer.py` — the generic parameter
  (de)structuring of scatterers (`Scatterer.parameters`,
  `Scatterer.from_parameters`) and the coordinate triple type `xyzTriple`.
* The scattering-theory layer (Mie / Multisphere dispatch, validity checks,
  selection-masked hologram computation, the multisphere iterative solve).
  The implementation files of that layer are not part of the sources at hand
  (only their tests are), so those operations are modelled from the spec, as
  marked in the individual doc comments; the low-level special-function
  numeric kernels are treated as external parameters throughout, mirroring
  the spec's external-interface boundary.

Numeric values are modelled as rationals (`ℚ`); complex numbers as explicit
real/imaginary pairs, so every definition is executable.
-/

set_option autoImplicit false

namespace Holopy

/-! ## xyzTriple (src/scatterpy/scatterer/abstract_scatterer.py, lines 166-214)

`xyzTriple.__new__(cls, xyz)` checks `np.isscalar(xyz) or len(xyz) != 3`,
then rejects any `None` element, then views the data as an array whose
`x`/`y`/`z` properties read `self[0]`, `self[1]`, `self[2]`. -/

/-- Inputs to `xyzTriple.__new__`: a numeric scalar, or a sequence whose
elements may be `None` (missing). -/
inductive XyzInput
  | scalar (q : ℚ)
  | seq (l : List (Option ℚ))
deriving DecidableEq

/-- Error raised by `xyzTriple.__new__`; it carries the offending input (the
source stores `repr(xyz)`). -/
inductive XyzError
  | invalidxyzTriple (xyz : XyzInput)
deriving DecidableEq

namespace xyzTriple

/-- Embedding of `xyzTriple.__new__`: scalars and sequences of length ≠ 3 are
rejected, then any `None` element is rejected, otherwise the data is kept as
the underlying triple. -/
def new : XyzInput → Except XyzError (List ℚ)
  | .scalar q => .error (.invalidxyzTriple (.scalar q))
  | .seq l =>
    if l.length ≠ 3 then .error (.invalidxyzTriple (.seq l))
    else if l.any (fun e => e = none) then .error (.invalidxyzTriple (.seq l))
    else .ok (l.filterMap id)

/-- Accessor `xyzTriple.x`, reading `self[0]` (total with an unreachable
default, since constructed triples have length 3). -/
def x (t : List ℚ) : ℚ := t.getD 0 0

/-- Accessor `xyzTriple.y`, reading `self[1]`. -/
def y (t : List ℚ) : ℚ := t.getD 1 0

/-- Accessor `xyzTriple.z`, reading `self[2]`. -/
def z (t : List ℚ) : ℚ := t.getD 2 0

end xyzTriple

/-- C10: constructing an `xyzTriple` from a scalar, from a sequence of length
other than 3, or from a sequence containing a `None` element raises
`InvalidxyzTriple`; for every valid 3-element input the constructor succeeds
and the `x`, `y`, `z` accessors return the first, second and third components
in order. -/
theorem c10_xyzTriple_validation :
    (∀ q : ℚ, xyzTriple.new (.scalar q) = .error (.invalidxyzTriple (.scalar q))) ∧
    (∀ l : List (Option ℚ), l.length ≠ 3 →
      xyzTriple.new (.seq l) = .error (.invalidxyzTriple (.seq l))) ∧
    (∀ l : List (Option ℚ), none ∈ l →
      xyzTriple.new (.seq l) = .error (.invalidxyzTriple (.seq l))) ∧
    (∀ a b c : ℚ,
      xyzTriple.new (.seq [some a, some b, some c]) = .ok [a, b, c] ∧
      xyzTriple.x [a, b, c] = a ∧ xyzTriple.y [a, b, c] = b ∧
      xyzTriple.z [a, b, c] = c) := by
  refine ⟨fun q => rfl, fun l hl => ?_, fun l hl => ?_, fun a b c => ?_⟩
  · simp [xyzTriple.new, hl]
  · have hany : l.any (fun e => e = none) = true := by
      simp only [List.any_eq_true]
      exact ⟨none, hl, by simp⟩
    by_cases h3 : l.length = 3 <;> simp [xyzTriple.new, h3, hany]
  · refine ⟨?_, rfl, rfl, rfl⟩
    simp [xyzTriple.new, List.filterMap]

/-- Concrete instantiation of `c10_xyzTriple_validation`. -/
theorem c10_xyzTriple_validation_witness :
    xyzTriple.new (.seq [some 1, some 2]) =
      .error (.invalidxyzTriple (.seq [some 1, some 2])) ∧
    xyzTriple.new (.seq [some 1, none, some 3]) =
      .error (.invalidxyzTriple (.seq [some 1, none, some 3])) ∧
    xyzTriple.new (.seq [some 1, some 2, some 3]) = .ok [1, 2, 3] := by
  refine ⟨c10_xyzTriple_validation.2.1 _ (by decide), ?_, ?_⟩
  · exact c10_xyzTriple_validation.2.2.1 _ (by simp)
  · exact (c10_xyzTriple_validation.2.2.2 1 2 3).1

/-! ## Parameter (de)structuring
(src/scatterpy/scatterer/abstract_scatterer.py, lines 65-158)

`Scatterer.parameters` flattens the instance attribute dictionary into a
sorted flat mapping from compound string keys to real scalars: sequence
elements get bracket suffixes `key[i]`, complex values are split into
`key.real` / `key.imag`.  `Scatterer.from_parameters` regroups such a
mapping (splitting each key once at the first `.`, then once at the first
`[` with `int(...)` applied to the index text), rebuilds complex numbers
and index-sorted lists, and passes the result to the class constructor.

Keys are modelled as their character sequences (`Key := List Char`). -/

abbrev Key := List Char

/-- Decimal digit character for `n < 10` (as produced by `str.format`). -/
def digitChar (n : ℕ) : Char := Char.ofNat (48 + n)

/-- Fuel-driven digit loop of the decimal printer (structural recursion on
the fuel, so that it computes definitionally; the fuel is always sufficient
at the call site). -/
def natCharsAux : ℕ → ℕ → List Char
  | 0, _ => []
  | fuel + 1, n =>
    if n < 10 then [digitChar n]
    else natCharsAux fuel (n / 10) ++ [digitChar (n % 10)]

/-- Decimal representation of a natural number, most significant digit
first, as produced by `'{0}[{1}]'.format(key, i)`. -/
def natChars (n : ℕ) : List Char := natCharsAux (n + 1) n

/-- Numeric value of a decimal digit character. -/
def digitVal (c : Char) : ℕ := c.toNat - 48

/-- Value of a decimal digit string (helper for `int(...)`). -/
def parseNat (l : List Char) : ℕ := l.foldl (fun a c => 10 * a + digitVal c) 0

/-- Embedding of Python `int(text)` on the index text of a bracketed key:
succeeds exactly on nonempty all-digit strings (a failure corresponds to the
`ValueError` `int` raises, e.g. on the `0][1` text a doubly-nested index
would produce). -/
def parseNatOpt (l : List Char) : Option ℕ :=
  if l ≠ [] ∧ l.all Char.isDigit then some (parseNat l) else none

/-- Embedding of `key.split(sep, 1)`: split at the first occurrence of `c`,
or `none` when `c` does not occur (Python then returns the 1-element list). -/
def splitFirst (c : Char) : List Char → Option (List Char × List Char)
  | [] => none
  | x :: xs =>
    if x = c then some ([], xs)
    else
      match splitFirst c xs with
      | some (a, b) => some (x :: a, b)
      | none => none

/-- Insertion step of insertion sort by a boolean comparison. -/
def insertLE {α : Type} (le : α → α → Bool) (a : α) : List α → List α
  | [] => [a]
  | b :: bs => if le a b then a :: b :: bs else b :: insertLE le a bs

/-- Insertion sort by a boolean comparison (embedding of Python `sorted`,
which is stable). -/
def sortLE {α : Type} (le : α → α → Bool) : List α → List α
  | [] => []
  | a :: as => insertLE le a (sortLE le as)

/-- Lexicographic comparison of keys (Python string comparison). -/
def keyLE : Key → Key → Bool
  | [], _ => true
  | _ :: _, [] => false
  | a :: as, b :: bs => if a = b then keyLE as bs else decide (a < b)

/-- Ordered-association-list lookup (Python dict indexing). -/
def alistLookup {α β : Type} [DecidableEq α] (k : α) : List (α × β) → Option β
  | [] => none
  | (k', v) :: rest => if k' = k then some v else alistLookup k rest

/-- Attribute values a scatterer stores: real scalars, complex numbers
(which `np.isscalar` also treats as scalar), and sequences. -/
inductive Value
  | real (q : ℚ)
  | complex (re im : ℚ)
  | vlist (l : List Value)

/-- Character sequence of the suffix text `real`. -/
def realKey : Key := ['r', 'e', 'a', 'l']

/-- Character sequence of the suffix text `imag`. -/
def imagKey : Key := ['i', 'm', 'a', 'g']

mutual

/-- Embedding of the inner `expand(key, par)` of `Scatterer.parameters`:
non-scalars recurse over their enumeration with bracket-suffixed keys,
complex scalars split into `.real` / `.imag`, plain scalars are emitted
as-is. -/
def expand : Key → Value → List (Key × ℚ)
  | key, .real q => [(key, q)]
  | key, .complex re im =>
      [(key ++ '.' :: realKey, re), (key ++ '.' :: imagKey, im)]
  | key, .vlist l => expandList key 0 l

/-- Enumeration loop of `expand` over a sequence value, carrying the index. -/
def expandList : Key → ℕ → List Value → List (Key × ℚ)
  | _, _, [] => []
  | key, i, v :: vs =>
      expand (key ++ '[' :: (natChars i ++ [']'])) v ++ expandList key (i + 1) vs

end

/-- Embedding of `Scatterer.parameters`: expand every attribute and sort the
resulting flat pairs by key (`OrderedDict(sorted(chain(...)))`). -/
def parametersOf (attrs : List (Key × Value)) : List (Key × ℚ) :=
  sortLE (fun a b => keyLE a.1 b.1) (attrs.flatMap (fun p => expand p.1 p.2))

/-- First grouping stage of `from_parameters` (`collected`): a value is
either a plain scalar or a sub-dictionary collected from dotted keys. -/
inductive Grouped
  | scalar (q : ℚ)
  | sub (entries : List (Key × ℚ))
deriving DecidableEq

/-- Second grouping stage of `from_parameters` (`collected_arrays`): a value
is either carried over unchanged or an index-keyed dictionary collected from
bracketed keys. -/
inductive GroupedArr
  | flat (g : Grouped)
  | arr (entries : List (ℕ × Grouped))
deriving DecidableEq

/-- Insertion of `collected[tok[0]][tok[1]] = val` into the (determinised as
insertion-ordered) dictionary; the `scalar` branch is unreachable for key
sets produced by `parameters`. -/
def insertDotted (k0 k1 : Key) (v : ℚ) : List (Key × Grouped) → List (Key × Grouped)
  | [] => [(k0, .sub [(k1, v)])]
  | (k, g) :: rest =>
    if k = k0 then
      match g with
      | .sub m => (k, .sub (m ++ [(k1, v)])) :: rest
      | .scalar _ => (k, .sub [(k1, v)]) :: rest
    else (k, g) :: insertDotted k0 k1 v rest

/-- Insertion of `collected[key] = val` for an undotted key. -/
def insertPlain (k0 : Key) (v : ℚ) : List (Key × Grouped) → List (Key × Grouped)
  | [] => [(k0, .scalar v)]
  | (k, g) :: rest =>
    if k = k0 then (k, .scalar v) :: rest else (k, g) :: insertPlain k0 v rest

/-- First loop of `from_parameters`: split every key once at the first `.`
and group the dotted ones. -/
def collectDots : List (Key × ℚ) → List (Key × Grouped) → List (Key × Grouped)
  | [], acc => acc
  | (k, v) :: rest, acc =>
    match splitFirst '.' k with
    | some (k0, k1) => collectDots rest (insertDotted k0 k1 v acc)
    | none => collectDots rest (insertPlain k v acc)

/-- Insertion of `collected_arrays[sub_key][n] = val`; the `flat` branch is
unreachable for key sets produced by `parameters`. -/
def insertIndexed (k0 : Key) (n : ℕ) (g : Grouped) :
    List (Key × GroupedArr) → List (Key × GroupedArr)
  | [] => [(k0, .arr [(n, g)])]
  | (k, a) :: rest =>
    if k = k0 then
      match a with
      | .arr m => (k, .arr (m ++ [(n, g)])) :: rest
      | .flat _ => (k, .arr [(n, g)]) :: rest
    else (k, a) :: insertIndexed k0 n g rest

/-- Insertion of `collected_arrays[key] = val` for an unbracketed key. -/
def insertFlat (k0 : Key) (g : Grouped) : List (Key × GroupedArr) → List (Key × GroupedArr)
  | [] => [(k0, .flat g)]
  | (k, a) :: rest =>
    if k = k0 then (k, .flat g) :: rest else (k, a) :: insertFlat k0 g rest

/-- Second loop of `from_parameters`: split every collected key once at the
first `[`, parse the index text with `int` (minus its trailing `]`), and
group; `none` models the `ValueError` escaping `from_parameters` when the
index text is not a plain number. -/
def collectBrackets : List (Key × Grouped) → List (Key × GroupedArr) →
    Option (List (Key × GroupedArr))
  | [], acc => some acc
  | (k, g) :: rest, acc =>
    match splitFirst '[' k with
    | some (k0, idxText) =>
      match parseNatOpt idxText.dropLast with
      | some n => collectBrackets rest (insertIndexed k0 n g acc)
      | none => none
    | none => collectBrackets rest (insertFlat k g acc)

/-- Result values of `from_parameters`' `build`: rebuilt scalars, complex
numbers and lists, or a sub-dictionary left as-is when it matches neither
the `real`/`imag` pattern nor the all-integer-keys pattern. -/
inductive Built
  | real (q : ℚ)
  | complex (re im : ℚ)
  | blist (l : List Built)
  | bdict (entries : List (Key × ℚ))

/-- Embedding of `build` on a first-stage value: a sub-dictionary whose
sorted key list is exactly `['imag', 'real']` becomes a complex number,
anything else is returned unchanged. -/
def buildGrouped : Grouped → Built
  | .scalar q => .real q
  | .sub m =>
    if sortLE keyLE (m.map Prod.fst) = [imagKey, realKey] then
      match alistLookup realKey m, alistLookup imagKey m with
      | some re, some im => .complex re im
      | _, _ => .bdict m
    else .bdict m

/-- Embedding of `build` on a second-stage value: an index-keyed dictionary
(all keys integers) becomes the list of its values sorted by index, each
built recursively. -/
def buildArr : GroupedArr → Built
  | .flat g => buildGrouped g
  | .arr m =>
      .blist ((sortLE (fun a b => decide (a.1 ≤ b.1)) m).map (fun p => buildGrouped p.2))

/-- Embedding of `Scatterer.from_parameters` up to the final constructor
call: regroup the flat mapping and build every top-level attribute value. -/
def fromParameters (ps : List (Key × ℚ)) : Option (List (Key × Built)) :=
  (collectBrackets (collectDots ps []) []).map (fun ca => ca.map (fun p => (p.1, buildArr p.2)))

/-! ## Concrete scatterer kinds

Attribute layouts of the supported kinds (a sphere holds a complex index
`n`, a radius `r` and an `xyzTriple` `center`; a coated sphere holds
per-layer index and radius sequences; an ellipsoid holds three semi-axes).
The class constructors receive the rebuilt attribute dictionary as keyword
arguments (`cls(**built)`). -/

/-- Data of a `Sphere`: complex index, radius, center triple. -/
structure SphereData where
  n : ℚ × ℚ
  r : ℚ
  center : ℚ × ℚ × ℚ
deriving DecidableEq

/-- Data of a `CoatedSphere`: per-layer (core, shell) complex indices and
radii, and a center triple. -/
structure CoatedSphereData where
  n : (ℚ × ℚ) × (ℚ × ℚ)
  r : ℚ × ℚ
  center : ℚ × ℚ × ℚ
deriving DecidableEq

/-- Data of an `Ellipsoid`: complex index, three semi-axes, center triple. -/
structure EllipsoidData where
  n : ℚ × ℚ
  r : ℚ × ℚ × ℚ
  center : ℚ × ℚ × ℚ
deriving DecidableEq

/-- Character sequence of the attribute name `center`. -/
def centerKey : Key := ['c', 'e', 'n', 't', 'e', 'r']

/-- Character sequence of the attribute name `n`. -/
def nKey : Key := ['n']

/-- Character sequence of the attribute name `r`. -/
def rKey : Key := ['r']

/-- Instance attribute dictionary of a `Sphere`. -/
def sphereAttrs (s : SphereData) : List (Key × Value) :=
  [(nKey, .complex s.n.1 s.n.2), (rKey, .real s.r),
   (centerKey, .vlist [.real s.center.1, .real s.center.2.1, .real s.center.2.2])]

/-- Instance attribute dictionary of a `CoatedSphere`. -/
def coatedSphereAttrs (s : CoatedSphereData) : List (Key × Value) :=
  [(nKey, .vlist [.complex s.n.1.1 s.n.1.2, .complex s.n.2.1 s.n.2.2]),
   (rKey, .vlist [.real s.r.1, .real s.r.2]),
   (centerKey, .vlist [.real s.center.1, .real s.center.2.1, .real s.center.2.2])]

/-- Instance attribute dictionary of an `Ellipsoid`. -/
def ellipsoidAttrs (s : EllipsoidData) : List (Key × Value) :=
  [(nKey, .complex s.n.1 s.n.2),
   (rKey, .vlist [.real s.r.1, .real s.r.2.1, .real s.r.2.2]),
   (centerKey, .vlist [.real s.center.1, .real s.center.2.1, .real s.center.2.2])]

/-- Flat parameter mapping of a `Sphere` (`Sphere.parameters`). -/
def sphereParameters (s : SphereData) : List (Key × ℚ) :=
  parametersOf (sphereAttrs s)

/-- Flat parameter mapping of a `CoatedSphere`. -/
def coatedSphereParameters (s : CoatedSphereData) : List (Key × ℚ) :=
  parametersOf (coatedSphereAttrs s)

/-- Flat parameter mapping of an `Ellipsoid`. -/
def ellipsoidParameters (s : EllipsoidData) : List (Key × ℚ) :=
  parametersOf (ellipsoidAttrs s)

/-- Keyword-argument constructor `Sphere(**built)`: accepts exactly the
attribute shapes a sphere stores. -/
def sphereOfBuilt (b : List (Key × Built)) : Option SphereData :=
  match alistLookup nKey b, alistLookup rKey b, alistLookup centerKey b with
  | some (.complex nr ni), some (.real r),
      some (.blist [.real c1, .real c2, .real c3]) =>
    some ⟨(nr, ni), r, (c1, c2, c3)⟩
  | _, _, _ => none

/-- Keyword-argument constructor `CoatedSphere(**built)`. -/
def coatedSphereOfBuilt (b : List (Key × Built)) : Option CoatedSphereData :=
  match alistLookup nKey b, alistLookup rKey b, alistLookup centerKey b with
  | some (.blist [.complex n1r n1i, .complex n2r n2i]),
      some (.blist [.real r1, .real r2]),
      some (.blist [.real c1, .real c2, .real c3]) =>
    some ⟨((n1r, n1i), (n2r, n2i)), (r1, r2), (c1, c2, c3)⟩
  | _, _, _ => none

/-- Keyword-argument constructor `Ellipsoid(**built)`. -/
def ellipsoidOfBuilt (b : List (Key × Built)) : Option EllipsoidData :=
  match alistLookup nKey b, alistLookup rKey b, alistLookup centerKey b with
  | some (.complex nr ni), some (.blist [.real r1, .real r2, .real r3]),
      some (.blist [.real c1, .real c2, .real c3]) =>
    some ⟨(nr, ni), (r1, r2, r3), (c1, c2, c3)⟩
  | _, _, _ => none

/-- Reconstruction `Sphere.from_parameters`: generic regrouping followed by
the constructor call. -/
def sphereFromParameters (ps : List (Key × ℚ)) : Option SphereData :=
  (fromParameters ps).bind sphereOfBuilt

/-- Reconstruction `CoatedSphere.from_parameters`. -/
def coatedSphereFromParameters (ps : List (Key × ℚ)) : Option CoatedSphereData :=
  (fromParameters ps).bind coatedSphereOfBuilt

/-- Reconstruction `Ellipsoid.from_parameters`. -/
def ellipsoidFromParameters (ps : List (Key × ℚ)) : Option EllipsoidData :=
  (fromParameters ps).bind ellipsoidOfBuilt

set_option maxHeartbeats 4000000 in
/-- Round trip for a single sphere, by computation. -/
theorem sphere_roundtrip (s : SphereData) :
    sphereFromParameters (sphereParameters s) = some s := rfl

set_option maxHeartbeats 4000000 in
/-- Round trip for a coated sphere, by computation. -/
theorem coatedSphere_roundtrip (s : CoatedSphereData) :
    coatedSphereFromParameters (coatedSphereParameters s) = some s := rfl

set_option maxHeartbeats 4000000 in
/-- Round trip for an ellipsoid, by computation. -/
theorem ellipsoid_roundtrip (s : EllipsoidData) :
    ellipsoidFromParameters (ellipsoidParameters s) = some s := rfl

/-! ## Sphere clusters

The cluster override of the parameter (de)structuring is not among the
sources at hand (only the generic base-class version is), so it is modelled
from the spec: "nested indices and complex real/imag split encoded in
compound keys" / "sequence elements indexed with bracket suffixes".  A
cluster member `i` contributes its own flat parameters under the compound
prefix `spheres[i].`; reconstruction parses the member index back from each
key, groups, orders numerically, and rebuilds each member with the generic
machinery. -/

/-- Character sequence of the attribute name `spheres`. -/
def spheresKey : Key := ['s', 'p', 'h', 'e', 'r', 'e', 's']

/-- Pair each list element with its index, starting at `i`. -/
def withIdx {α : Type} (i : ℕ) : List α → List (ℕ × α)
  | [] => []
  | a :: as => (i, a) :: withIdx (i + 1) as

/-- Compound key of member `i`'s own key `sub`: the text
`spheres[i].sub`. -/
def memberKey (i : ℕ) (sub : Key) : Key :=
  spheresKey ++ '[' :: (natChars i ++ ']' :: '.' :: sub)

/-- Contribution of member `i` to a cluster's flat parameter mapping: the
member's own parameters under the compound member prefix. -/
def memberBlock (i : ℕ) (s : SphereData) : List (Key × ℚ) :=
  (sphereParameters s).map (fun kv => (memberKey i kv.1, kv.2))

/-- Modelled from the spec: `SphereCluster.parameters` (the override is not
among the sources); every member's flat parameters, bracket-indexed with the
member's position. -/
def clusterParameters (ms : List SphereData) : List (Key × ℚ) :=
  (withIdx 0 ms).flatMap (fun p => memberBlock p.1 p.2)

/-- Strip an expected literal character sequence from the front of a key. -/
def dropLit (l k : List Char) : Option (List Char) :=
  match l with
  | [] => some k
  | c :: cs =>
    match k with
    | [] => none
    | x :: xs => if x = c then dropLit cs xs else none

/-- Modelled from the spec: parse a cluster member key `spheres[i].sub` into
the member index and the member's own key. -/
def parseMemberKey (k : Key) : Option (ℕ × Key) :=
  match dropLit (spheresKey ++ ['[']) k with
  | none => none
  | some rest =>
    match rest.takeWhile Char.isDigit, rest.dropWhile Char.isDigit with
    | [], _ => none
    | ds, ']' :: '.' :: sub => some (parseNat ds, sub)
    | _, _ => none

/-- Insert a member's key/value pair into its index bucket (buckets keep
first-seen order). -/
def bucketInsert (i : ℕ) (kv : Key × ℚ) :
    List (ℕ × List (Key × ℚ)) → List (ℕ × List (Key × ℚ))
  | [] => [(i, [kv])]
  | (j, b) :: rest =>
    if j = i then (j, b ++ [kv]) :: rest else (j, b) :: bucketInsert i kv rest

/-- Group a cluster's flat parameters by member index; fails if any key is
not a well-formed member key. -/
def clusterCollect : List (Key × ℚ) → List (ℕ × List (Key × ℚ)) →
    Option (List (ℕ × List (Key × ℚ)))
  | [], acc => some acc
  | (k, v) :: rest, acc =>
    match parseMemberKey k with
    | some (i, sub) => clusterCollect rest (bucketInsert i (sub, v) acc)
    | none => none

/-- Total variant of `List.mapM` over `Option` (for proof convenience). -/
def mapOpt {α β : Type} (f : α → Option β) : List α → Option (List β)
  | [] => some []
  | a :: as =>
    match f a, mapOpt f as with
    | some b, some bs => some (b :: bs)
    | _, _ => none

/-- Modelled from the spec: `SphereCluster.from_parameters`; group the flat
mapping by member index, order members numerically, and rebuild each member
sphere with the generic machinery and the `Sphere` constructor. -/
def clusterFromParameters (ps : List (Key × ℚ)) : Option (List SphereData) :=
  match clusterCollect ps [] with
  | none => none
  | some buckets =>
    mapOpt (fun b => (fromParameters b.2).bind sphereOfBuilt)
      (sortLE (fun a b => decide (a.1 ≤ b.1)) buckets)

/-! ### Decimal printing and parsing round trip -/

/-- Digit characters are digits. -/
theorem digitChar_isDigit {m : ℕ} (h : m < 10) : (digitChar m).isDigit = true := by
  interval_cases m <;> decide

/-- Numeric value of a produced digit character. -/
theorem digitVal_digitChar {m : ℕ} (h : m < 10) : digitVal (digitChar m) = m := by
  interval_cases m <;> decide

/-- Every character the decimal printer produces is a digit. -/
theorem natCharsAux_isDigit :
    ∀ fuel n {c : Char}, c ∈ natCharsAux fuel n → c.isDigit = true := by
  intro fuel
  induction fuel with
  | zero => intro n c h; simp [natCharsAux] at h
  | succ fuel ih =>
    intro n c h
    by_cases h10 : n < 10
    · simp [natCharsAux, h10] at h
      subst h
      exact digitChar_isDigit h10
    · simp [natCharsAux, h10] at h
      rcases h with h | h
      · exact ih _ h
      · subst h
        exact digitChar_isDigit (Nat.mod_lt _ (by norm_num))

/-- The decimal printer never produces the empty string. -/
theorem natChars_ne_nil (n : ℕ) : natChars n ≠ [] := by
  unfold natChars natCharsAux
  by_cases h : n < 10 <;> simp [h]

/-- Folding one more digit. -/
theorem parseNat_append_digit (l : List Char) (c : Char) :
    parseNat (l ++ [c]) = 10 * parseNat l + digitVal c := by
  simp [parseNat, List.foldl_append]

/-- Parsing inverts printing (fuel-level statement). -/
theorem parseNat_natCharsAux :
    ∀ fuel n, n < fuel → parseNat (natCharsAux fuel n) = n := by
  intro fuel
  induction fuel with
  | zero => intro n h; omega
  | succ fuel ih =>
    intro n h
    by_cases h10 : n < 10
    · have : parseNat [digitChar n] = digitVal (digitChar n) := by
        simp [parseNat]
      simp [natCharsAux, h10, this, digitVal_digitChar h10]
    · have hdiv : n / 10 < fuel := by
        have := Nat.div_lt_self (n := n) (by omega) (by norm_num : 1 < 10)
        omega
      have hmod : n % 10 < 10 := Nat.mod_lt _ (by norm_num)
      simp only [natCharsAux, h10, if_false, parseNat_append_digit,
        ih _ hdiv, digitVal_digitChar hmod]
      omega

/-- Parsing inverts printing. -/
theorem parseNat_natChars (n : ℕ) : parseNat (natChars n) = n :=
  parseNat_natCharsAux _ _ (by omega)

/-- A run of characters satisfying `p`, then one that does not: `takeWhile`
and `dropWhile` split exactly there. -/
theorem takeWhile_dropWhile_strike {p : Char → Bool} :
    ∀ (l : List Char) (x : Char) (r : List Char), (∀ c ∈ l, p c = true) →
      p x = false →
      (l ++ x :: r).takeWhile p = l ∧ (l ++ x :: r).dropWhile p = x :: r := by
  intro l x r hl hx
  induction l with
  | nil => simp [hx]
  | cons a as ih =>
    have ha : p a = true := hl a (by simp)
    have hrest := ih (fun c hc => hl c (by simp [hc]))
    simp [List.takeWhile_cons, List.dropWhile_cons, ha, hrest.1, hrest.2]

/-- Stripping an expected literal succeeds exactly on that literal. -/
theorem dropLit_append : ∀ l k : List Char, dropLit l (l ++ k) = some k := by
  intro l
  induction l with
  | nil => intro k; rfl
  | cons c cs ih => intro k; simp [dropLit, ih]

/-- Member-key parsing inverts member-key construction. -/
theorem parseMemberKey_memberKey (i : ℕ) (sub : Key) :
    parseMemberKey (memberKey i sub) = some (i, sub) := by
  have h1 : dropLit (spheresKey ++ ['[']) (memberKey i sub) =
      some (natChars i ++ ']' :: '.' :: sub) := by
    have := dropLit_append (spheresKey ++ ['[']) (natChars i ++ ']' :: '.' :: sub)
    simpa [memberKey] using this
  obtain ⟨tw, dw⟩ := takeWhile_dropWhile_strike (natChars i) ']' ('.' :: sub)
    (fun c hc => natCharsAux_isDigit _ _ hc) (by decide)
  rcases hne : natChars i with _ | ⟨d, ds⟩
  · exact absurd hne (natChars_ne_nil i)
  · rw [hne] at tw dw
    simp only [parseMemberKey, h1, hne, tw, dw]
    have : parseNat (d :: ds) = i := by rw [← hne, parseNat_natChars]
    simp [this]

/-! ### Grouping a cluster's flat parameters recovers the member blocks -/

/-- Inserting a fresh index appends a new bucket. -/
theorem bucketInsert_fresh (i : ℕ) (kv : Key × ℚ) :
    ∀ acc, (∀ x ∈ acc, x.1 ≠ i) → bucketInsert i kv acc = acc ++ [(i, [kv])] := by
  intro acc
  induction acc with
  | nil => intro _; rfl
  | cons x xs ih =>
    intro h
    have hx : x.1 ≠ i := h x (by simp)
    simp [bucketInsert, hx, ih (fun y hy => h y (by simp [hy]))]

/-- Inserting into the index of the last bucket appends to that bucket. -/
theorem bucketInsert_last (i : ℕ) (kv : Key × ℚ) (b : List (Key × ℚ)) :
    ∀ acc, (∀ x ∈ acc, x.1 ≠ i) →
      bucketInsert i kv (acc ++ [(i, b)]) = acc ++ [(i, b ++ [kv])] := by
  intro acc
  induction acc with
  | nil => simp [bucketInsert]
  | cons x xs ih =>
    intro h
    have hx : x.1 ≠ i := h x (by simp)
    simp [bucketInsert, hx, ih (fun y hy => h y (by simp [hy]))]

/-- Collection distributes over appending, once the first part succeeds. -/
theorem clusterCollect_append {xs : List (Key × ℚ)} :
    ∀ {acc acc'}, clusterCollect xs acc = some acc' →
      ∀ ys, clusterCollect (xs ++ ys) acc = clusterCollect ys acc' := by
  induction xs with
  | nil =>
    intro acc acc' h ys
    simp [clusterCollect] at h
    subst h
    rfl
  | cons kv rest ih =>
    intro acc acc' h ys
    match hp : parseMemberKey kv.1 with
    | none => simp [clusterCollect, hp] at h
    | some p =>
      simp only [clusterCollect, hp] at h ⊢
      exact ih h ys

/-- Collecting one member's mapped parameters into the last bucket. -/
theorem clusterCollect_mapped_last (i : ℕ) :
    ∀ (ps : List (Key × ℚ)) (b : List (Key × ℚ)) acc, (∀ x ∈ acc, x.1 ≠ i) →
      clusterCollect (ps.map (fun kv => (memberKey i kv.1, kv.2)))
        (acc ++ [(i, b)]) = some (acc ++ [(i, b ++ ps)]) := by
  intro ps
  induction ps with
  | nil => intro b acc _; simp [clusterCollect]
  | cons kv rest ih =>
    intro b acc h
    simp only [List.map_cons, clusterCollect, parseMemberKey_memberKey]
    rw [bucketInsert_last i (kv.1, kv.2) b acc h]
    have := ih (b ++ [(kv.1, kv.2)]) acc h
    simpa using this

/-- Collecting one member's whole block appends one bucket holding exactly
the member's own parameters. -/
theorem clusterCollect_block (i : ℕ) (s : SphereData) :
    ∀ acc, (∀ x ∈ acc, x.1 ≠ i) →
      clusterCollect (memberBlock i s) acc = some (acc ++ [(i, sphereParameters s)]) := by
  intro acc h
  have h6 : (sphereParameters s).length = 6 := rfl
  rw [memberBlock]
  generalize hps : sphereParameters s = ps
  rw [hps] at h6
  rcases ps with _ | ⟨kv, rest⟩
  · simp at h6
  · simp only [List.map_cons, clusterCollect, parseMemberKey_memberKey]
    rw [bucketInsert_fresh i (kv.1, kv.2) acc h]
    have := clusterCollect_mapped_last i rest [(kv.1, kv.2)] acc h
    simpa using this

/-- The buckets a cluster's member blocks collect into: one per member, in
member order. -/
def memberBuckets (i0 : ℕ) (ms : List SphereData) : List (ℕ × List (Key × ℚ)) :=
  (withIdx i0 ms).map (fun p => (p.1, sphereParameters p.2))

/-- Bucket indices are bounded below by the starting index. -/
theorem memberBuckets_le :
    ∀ (ms : List SphereData) (i0 : ℕ) x, x ∈ memberBuckets i0 ms → i0 ≤ x.1 := by
  intro ms
  induction ms with
  | nil => intro i0 x h; simp [memberBuckets, withIdx] at h
  | cons s rest ih =>
    intro i0 x h
    simp only [memberBuckets, withIdx, List.map_cons, List.mem_cons] at h
    rcases h with h | h
    · simp [h]
    · have := ih (i0 + 1) x h
      omega

/-- Collecting a whole cluster's flat parameters yields the member buckets. -/
theorem clusterCollect_cluster :
    ∀ (ms : List SphereData) (i0 : ℕ) acc, (∀ x ∈ acc, x.1 < i0) →
      clusterCollect ((withIdx i0 ms).flatMap (fun p => memberBlock p.1 p.2)) acc =
        some (acc ++ memberBuckets i0 ms) := by
  intro ms
  induction ms with
  | nil => intro i0 acc _; simp [withIdx, memberBuckets, clusterCollect]
  | cons s rest ih =>
    intro i0 acc h
    simp only [withIdx, List.flatMap_cons]
    rw [clusterCollect_append
      (clusterCollect_block i0 s acc (fun x hx => Nat.ne_of_lt (h x hx)))]
    rw [ih (i0 + 1) (acc ++ [(i0, sphereParameters s)])
      (by
        intro x hx
        rcases List.mem_append.1 hx with hx | hx
        · exact Nat.lt_succ_of_lt (h x hx)
        · simp at hx
          simp [hx])]
    simp [memberBuckets, withIdx]

/-! ### Sorting the buckets leaves them in place; rebuilding recovers the
members -/

/-- Insertion sort leaves an already-sorted list unchanged. -/
theorem sortLE_of_pairwise {α : Type} (le : α → α → Bool) :
    ∀ l : List α, List.Pairwise (fun x y => le x y = true) l → sortLE le l = l := by
  intro l
  induction l with
  | nil => intro _; rfl
  | cons a as ih =>
    intro h
    have hta := List.pairwise_cons.1 h
    rw [sortLE, ih hta.2]
    cases as with
    | nil => rfl
    | cons b bs => simp [insertLE, hta.1 b (by simp)]

/-- Member buckets are sorted by index. -/
theorem memberBuckets_pairwise (ms : List SphereData) :
    ∀ i0, List.Pairwise (fun x y => decide (x.1 ≤ y.1) = true)
      (memberBuckets i0 ms) := by
  induction ms with
  | nil => intro i0; simp [memberBuckets, withIdx]
  | cons s rest ih =>
    intro i0
    simp only [memberBuckets, withIdx, List.map_cons, List.pairwise_cons]
    refine ⟨fun y hy => ?_, ih (i0 + 1)⟩
    have := memberBuckets_le rest (i0 + 1) y hy
    simp
    omega

/-- Rebuilding every bucket recovers the member spheres. -/
theorem mapOpt_memberBuckets :
    ∀ (ms : List SphereData) (i0 : ℕ),
      mapOpt (fun b => (fromParameters b.2).bind sphereOfBuilt)
        (memberBuckets i0 ms) = some ms := by
  intro ms
  induction ms with
  | nil => intro i0; rfl
  | cons s rest ih =>
    intro i0
    simp only [memberBuckets, withIdx, List.map_cons, mapOpt]
    have hs : (fromParameters (sphereParameters s)).bind sphereOfBuilt = some s :=
      sphere_roundtrip s
    rw [hs]
    have := ih (i0 + 1)
    simp only [memberBuckets] at this
    rw [this]

/-- Round trip for a cluster of spheres: destructuring then reconstruction
recovers every member, in order. -/
theorem cluster_roundtrip (ms : List SphereData) :
    clusterFromParameters (clusterParameters ms) = some ms := by
  unfold clusterFromParameters clusterParameters
  rw [clusterCollect_cluster ms 0 [] (by simp)]
  simp only [List.nil_append]
  rw [sortLE_of_pairwise _ _ (memberBuckets_pairwise ms 0)]
  exact mapOpt_memberBuckets ms 0

/-- C1: for every supported scatterer kind (sphere, coated sphere,
ellipsoid, cluster of spheres), reconstructing a scatterer from its flat
parameter mapping is lossless: `from_parameters(parameters(s))` yields a
scatterer with attribute values identical to `s`, including nested cluster
members (bracket-indexed keys) and complex refractive indices (split into
`.real` / `.imag` keys). -/
theorem c1_parameters_roundtrip :
    (∀ s : SphereData, sphereFromParameters (sphereParameters s) = some s) ∧
    (∀ s : CoatedSphereData,
      coatedSphereFromParameters (coatedSphereParameters s) = some s) ∧
    (∀ s : EllipsoidData,
      ellipsoidFromParameters (ellipsoidParameters s) = some s) ∧
    (∀ ms : List SphereData, clusterFromParameters (clusterParameters ms) = some ms) :=
  ⟨sphere_roundtrip, coatedSphere_roundtrip, ellipsoid_roundtrip, cluster_roundtrip⟩

/-! ## Scattering-theory layer

The theory layer (dispatcher, Mie engine, Multisphere engine, optics and
schema types, scattering errors) is not among the sources at hand — only its
test files are — so the definitions below are modelled from the spec
(sections 3, 4.1-4.4 and 7), with the external special-function numeric
kernels kept as explicit parameters, as the spec's external-interface
section prescribes. -/

/-- Complex field amplitude as an explicit rational pair. -/
structure Cx where
  re : ℚ
  im : ℚ
deriving DecidableEq

/-- Complex addition. -/
def Cx.add (a b : Cx) : Cx := ⟨a.re + b.re, a.im + b.im⟩

/-- Scaling by a real amplitude factor. -/
def Cx.smul (q : ℚ) (a : Cx) : Cx := ⟨q * a.re, q * a.im⟩

/-- Squared modulus. -/
def Cx.normSq (a : Cx) : ℚ := a.re * a.re + a.im * a.im

/-- Real part of `conj a * b` (the interference cross term). -/
def cxDot (a b : Cx) : ℚ := a.re * b.re + a.im * b.im

/-- A 3-component complex field value at one sample position. -/
def Vec3 : Type := Cx × Cx × Cx

/-- Componentwise field superposition. -/
def vAdd (a b : Vec3) : Vec3 := (a.1.add b.1, a.2.1.add b.2.1, a.2.2.add b.2.2)

/-- Componentwise scaling by the real amplitude factor. -/
def vSmul (q : ℚ) (a : Vec3) : Vec3 := (Cx.smul q a.1, Cx.smul q a.2.1, Cx.smul q a.2.2)

/-- Squared modulus of a field vector. -/
def vecNormSq (a : Vec3) : ℚ := a.1.normSq + a.2.1.normSq + a.2.2.normSq

/-- The zero field value. -/
def vZero : Vec3 := (⟨0, 0⟩, ⟨0, 0⟩, ⟨0, 0⟩)

/-- Modelled from the spec: the unit-amplitude polarized reference plane
wave the scattered field interferes with (`hologram = |scattering_amplitude
* scaling + reference_wave|²`). -/
def refWave : Vec3 := (⟨1, 0⟩, ⟨0, 0⟩, ⟨0, 0⟩)

/-- One hologram pixel: interference of the scaled scattered field with the
reference wave. -/
def holoPix (scaling : ℚ) (v : Vec3) : ℚ := vecNormSq (vAdd refWave (vSmul scaling v))

/-- Non-composite scatterer kinds. -/
inductive SimpleScatterer
  | sphere (s : SphereData)
  | coatedSphere (s : CoatedSphereData)
  | ellipsoid (s : EllipsoidData)
deriving DecidableEq

/-- A scatterer passed to a theory: a single scatterer or a composite
cluster of scatterers. -/
inductive Scatterer
  | simple (s : SimpleScatterer)
  | cluster (members : List SimpleScatterer)
deriving DecidableEq

/-- Python type name of a non-composite scatterer, as used in the
TheoryNotCompatibleError message. -/
def typeNameSimple : SimpleScatterer → String
  | .sphere _ => "Sphere"
  | .coatedSphere _ => "CoatedSphere"
  | .ellipsoid _ => "Ellipsoid"

/-- Modelled from the spec: a theory variant's declared capability set — its
name and the non-composite scatterer kinds it accepts. -/
structure Theory where
  name : String
  handles : SimpleScatterer → Bool

/-- Capability declaration of the Mie theory: isolated spheres and clusters
of spheres only. -/
def MieTheory : Theory :=
  { name := "Mie", handles := fun s => match s with | .sphere _ => true | _ => false }

/-- Capability declaration of the Multisphere theory: sphere clusters (and
their sphere members) only. -/
def MultisphereTheory : Theory :=
  { name := "Multisphere", handles := fun s => match s with | .sphere _ => true | _ => false }

/-- Compatibility check of the dispatcher: a composite cluster is compatible
exactly when every member is. -/
def compatible (th : Theory) : Scatterer → Bool
  | .simple s => th.handles s
  | .cluster ms => ms.all th.handles

/-- Type of the scatterer reported by TheoryNotCompatibleError: for a
cluster, the first offending member's type. -/
def offendingType (th : Theory) : Scatterer → String
  | .simple s => typeNameSimple s
  | .cluster ms =>
    match ms.find? (fun s => !th.handles s) with
    | some s => typeNameSimple s
    | none => "Spheres"

/-- Modelled from the spec: the structured failure kinds of the scattering
layer (section 7 of the spec and the exception classes the tests import). -/
inductive CalcError
  | theoryNotCompatible (theory : String) (scattererType : String)
  | unrealizableScatterer
  | pixelScaleNotSpecified
  | wavelengthNotSpecified
  | convergenceFailureMultisphere
  | multisphereExpansionNaN
deriving DecidableEq

/-- Modelled from the spec: the optics configuration; wavelength and pixel
scale may legitimately be left unset at construction. -/
structure Optics where
  wavelen : Option ℚ
  index : ℚ
  polarization : ℚ × ℚ
  divergence : ℚ
  pixelScale : Option (ℚ × ℚ)

/-- A sample position supplied by the schema/grid provider. -/
def Pos : Type := ℚ × ℚ × ℚ

/-- Modelled from the spec: detector schema — sample positions, a selection
mask over them, and the optics. -/
structure Schema where
  positions : List Pos
  selection : List Bool
  optics : Optics

/-- Member spheres of a scatterer (projection used by the engines; the
dispatcher's compatibility check guarantees every member is a sphere when an
engine runs). -/
def sphereMembers : Scatterer → List SphereData
  | .simple (.sphere s) => [s]
  | .simple _ => []
  | .cluster ms => ms.filterMap (fun m => match m with | .sphere s => some s | _ => none)

/-- Modelled from the spec: the feasibility ceiling on the size parameter —
an implementation-defined practical threshold. -/
def sizeParCeiling : ℚ := 1000

/-- Size parameter up to the constant factor 2π: radius times medium index
over wavelength (kept rational; the ceiling absorbs the constant). -/
def sizeParProxy (wavelen index r : ℚ) : ℚ := r * index / wavelen

/-- Radius of a non-composite scatterer used by the realizability check (for
a coated sphere the outer radius). -/
def radiusOf : SimpleScatterer → ℚ
  | .sphere s => s.r
  | .coatedSphere s => s.r.2
  | .ellipsoid s => s.r.1

/-- One scatterer's realizability: positive radius and size parameter under
the feasibility ceiling. -/
def validSimple (wavelen index : ℚ) (s : SimpleScatterer) : Bool :=
  decide (0 < radiusOf s) && decide (sizeParProxy wavelen index (radiusOf s) ≤ sizeParCeiling)

/-- Modelled from the spec: `validate` of section 4.1 — every member must
have positive radius and feasible size parameter. -/
def validScatterer (wavelen index : ℚ) : Scatterer → Bool
  | .simple s => validSimple wavelen index s
  | .cluster ms => ms.all (validSimple wavelen index)

/-! ### Selection-masked evaluation

Only positions selected by the schema's mask are evaluated; the results are
then placed back into a full-size output array whose unselected entries stay
at the default. -/

/-- Field values computed at the selected positions only, in order. -/
def computeSelected {α : Type} (f : Pos → α) : List (Pos × Bool) → List α
  | [] => []
  | (p, b) :: rest =>
    if b then f p :: computeSelected f rest else computeSelected f rest

/-- Place the computed values back at the selected slots, the default
elsewhere. -/
def placeBack {α : Type} (d : α) : List Bool → List α → List α
  | [], _ => []
  | true :: sel, v :: vals => v :: placeBack d sel vals
  | true :: sel, [] => d :: placeBack d sel []
  | false :: sel, vals => d :: placeBack d sel vals

/-- Selection-masked evaluation of a per-position function over the schema's
sample grid. -/
def maskedEval {α : Type} (f : Pos → α) (ps : List Pos) (sel : List Bool) (d : α) :
    List α :=
  placeBack d sel (computeSelected f (ps.zip sel))

/-! ### Engines and the dispatcher -/

/-- Modelled from the spec: a theory engine — the capability declaration
plus the solve step, which either produces a per-position field evaluator or
fails with a structured error. -/
structure Engine where
  theory : Theory
  solve : Scatterer → Except CalcError (Pos → Vec3)

/-- Modelled from the spec: the Mie engine over an external single-sphere
field kernel `K`; a cluster's field is the coherent superposition of its
members' fields. -/
def mieEngine (K : SphereData → Pos → Vec3) : Engine :=
  { theory := MieTheory,
    solve := fun sc =>
      .ok (fun p => (sphereMembers sc).foldl (fun acc s => vAdd acc (K s p)) vZero) }

/-- Multisphere tuning parameters (section 4.3 of the spec: iteration cap
and convergence tolerances, all with defaults). -/
structure MSConfig where
  niter : ℕ
  eps : ℚ
  meth : ℕ
  qeps1 : ℚ
  qeps2 : ℚ

/-- Modelled from the spec: default Multisphere tuning parameters. -/
def msDefault : MSConfig :=
  { niter := 200, eps := 1 / 1000000, meth := 1,
    qeps1 := 1 / 100000, qeps2 := 1 / 100000000 }

/-- External numeric behaviour of the multisphere iterative solve on a given
configuration: the residual after each iteration, whether an iteration
produces non-finite intermediates, and the converged coupled field. -/
structure MSNumerics where
  residual : ℕ → ℚ
  nanAt : ℕ → Bool
  field : List SphereData → Pos → Vec3

/-- Terminal states of the multisphere solve (spec section 4.3's state
machine: Converged, Diverged(NaN), ExhaustedIterations). -/
inductive MSOutcome
  | converged (k : ℕ)
  | nanDiverged
  | exhausted
deriving DecidableEq

/-- Iteration loop of the multisphere solve: at each step detect non-finite
intermediates, then test convergence, up to the remaining iteration
budget. -/
def msIterate (num : MSNumerics) (eps : ℚ) : ℕ → ℕ → MSOutcome
  | _, 0 => .exhausted
  | i, fuel + 1 =>
    if num.nanAt i then .nanDiverged
    else if num.residual i ≤ eps then .converged i
    else msIterate num eps (i + 1) fuel

/-- The multisphere solve: iterate from the first iteration with the
configured iteration cap. -/
def msSolve (cfg : MSConfig) (num : MSNumerics) : MSOutcome :=
  msIterate num cfg.eps 0 cfg.niter

/-- Modelled from the spec: the Multisphere engine; only the Converged state
produces a result, Diverged(NaN) and ExhaustedIterations surface as distinct
error kinds. -/
def msEngine (cfg : MSConfig) (num : MSNumerics) : Engine :=
  { theory := MultisphereTheory,
    solve := fun sc =>
      match msSolve cfg num with
      | .converged _ => .ok (num.field (sphereMembers sc))
      | .nanDiverged => .error .multisphereExpansionNaN
      | .exhausted => .error .convergenceFailureMultisphere }

/-- Modelled from the spec (section 4.4): the dispatcher's common checks —
(a) capability check, (b) needed optics attributes, (c) realizability
validation — followed by the engine's solve. -/
def pipelineGate (e : Engine) (sc : Scatterer) (sch : Schema) :
    Except CalcError (Pos → Vec3) :=
  if compatible e.theory sc = false then
    .error (.theoryNotCompatible e.theory.name (offendingType e.theory sc))
  else
    match sch.optics.pixelScale with
    | none => .error .pixelScaleNotSpecified
    | some _ =>
      match sch.optics.wavelen with
      | none => .error .wavelengthNotSpecified
      | some wl =>
        if validScatterer wl sch.optics.index sc = false then
          .error .unrealizableScatterer
        else
          e.solve sc

/-- The dispatcher's common pipeline: the checks and the solve, then
selection-masked evaluation of a per-position postprocessing of the field. -/
def calcPipeline {α : Type} (e : Engine) (sc : Scatterer) (sch : Schema)
    (post : (Pos → Vec3) → Pos → α) (d : α) : Except CalcError (List α) :=
  (pipelineGate e sc sch).map
    (fun f => maskedEval (post f) sch.positions sch.selection d)

/-- Dispatcher operation `calc_field`: the scattered field at every selected
sample position. -/
def calcField (e : Engine) (sc : Scatterer) (sch : Schema) :
    Except CalcError (List Vec3) :=
  calcPipeline e sc sch (fun f p => f p) vZero

/-- Dispatcher operation `calc_intensity`: `|field|²` at every selected
sample position. -/
def calcIntensity (e : Engine) (sc : Scatterer) (sch : Schema) :
    Except CalcError (List ℚ) :=
  calcPipeline e sc sch (fun f p => vecNormSq (f p)) 0

/-- Dispatcher operation `calc_holo`: interference of the scaled scattered
field with the reference wave at every selected sample position. -/
def calcHolo (e : Engine) (sc : Scatterer) (sch : Schema) (scaling : ℚ) :
    Except CalcError (List ℚ) :=
  calcPipeline e sc sch (fun f p => holoPix scaling (f p)) 0

/-! ### Concrete fixtures (mirroring the tests' optical train) -/

/-- Optics of the tests: wavelength 658 nm, medium index 1.33, x-polarized,
pixel scale 0.1151 µm. -/
def optics0 : Optics :=
  { wavelen := some (658 / 1000000000), index := 133 / 100, polarization := (1, 0),
    divergence := 0, pixelScale := some (1151 / 10000000000, 1151 / 10000000000) }

/-- A one-sample schema with the full optics and everything selected. -/
def sch0 : Schema := { positions := [(0, 0, 0)], selection := [true], optics := optics0 }

/-- A valid test sphere (r = 0.5 µm). -/
def sp0 : SphereData := ⟨(159 / 100, 0), 5 / 10000000, (1 / 1000000, -1 / 1000000, 1 / 100000)⟩

/-- A coated-sphere fixture. -/
def cs0 : CoatedSphereData := ⟨((2, 0), (2, 0)), (1 / 1000000, 2 / 1000000), (0, 0, 0)⟩

/-- An ellipsoid fixture. -/
def el0 : EllipsoidData := ⟨(159 / 100, 0), (1 / 1000000, 2 / 1000000, 3 / 1000000), (0, 0, 0)⟩

/-- Benign multisphere numerics: immediate convergence, no non-finite
intermediates, zero coupled field. -/
def num0 : MSNumerics := ⟨fun _ => 0, fun _ => false, fun _ _ => vZero⟩

/-! ### C2: incompatible theory/scatterer pairing -/

/-- C2: for every scatterer outside the active theory's capability set
(including any cluster containing one such member), each of `calc_field`,
`calc_intensity` and `calc_holo` fails with TheoryNotCompatibleError naming
the theory and the offending scatterer type, for every engine (hence with no
field evaluation performed). -/
theorem c2_incompatible_theory_rejected (e : Engine) (sc : Scatterer) (sch : Schema)
    (scaling : ℚ) (h : compatible e.theory sc = false) :
    calcField e sc sch =
      .error (.theoryNotCompatible e.theory.name (offendingType e.theory sc)) ∧
    calcIntensity e sc sch =
      .error (.theoryNotCompatible e.theory.name (offendingType e.theory sc)) ∧
    calcHolo e sc sch scaling =
      .error (.theoryNotCompatible e.theory.name (offendingType e.theory sc)) := by
  refine ⟨?_, ?_, ?_⟩ <;>
    simp [calcField, calcIntensity, calcHolo, calcPipeline, pipelineGate, h, Except.map]

/-- Concrete instantiations of `c2_incompatible_theory_rejected`: an
ellipsoid passed to Mie, and a cluster containing a coated sphere passed to
Multisphere. -/
theorem c2_incompatible_theory_rejected_witness :
    calcField (mieEngine (fun _ _ => vZero)) (.simple (.ellipsoid el0)) sch0 =
      .error (.theoryNotCompatible "Mie" "Ellipsoid") ∧
    calcHolo (msEngine msDefault num0) (.cluster [.sphere sp0, .coatedSphere cs0]) sch0
        (6 / 10) =
      .error (.theoryNotCompatible "Multisphere" "CoatedSphere") := by
  exact ⟨(c2_incompatible_theory_rejected (mieEngine (fun _ _ => vZero))
      (.simple (.ellipsoid el0)) sch0 0 rfl).1,
    (c2_incompatible_theory_rejected (msEngine msDefault num0)
      (.cluster [.sphere sp0, .coatedSphere cs0]) sch0 (6 / 10) rfl).2.2⟩

/-! ### C3: unrealizable geometry is rejected before evaluation -/

/-- Members of a scatterer (itself, for a non-composite one). -/
def memberList : Scatterer → List SimpleScatterer
  | .simple s => [s]
  | .cluster ms => ms

/-- Realizability is the conjunction of the members' realizability. -/
theorem validScatterer_eq_all (wl idx : ℚ) (sc : Scatterer) :
    validScatterer wl idx sc = (memberList sc).all (validSimple wl idx) := by
  cases sc with
  | simple s => simp [validScatterer, memberList]
  | cluster ms => rfl

/-- A member with non-positive radius or over-ceiling size parameter makes
the whole scatterer unrealizable. -/
theorem validScatterer_false_of_bad_member (wl idx : ℚ) (sc : Scatterer)
    (m : SimpleScatterer) (hm : m ∈ memberList sc)
    (hbad : radiusOf m ≤ 0 ∨ sizeParCeiling < sizeParProxy wl idx (radiusOf m)) :
    validScatterer wl idx sc = false := by
  rw [validScatterer_eq_all]
  have hms : validSimple wl idx m = false := by
    rcases hbad with h | h
    · simp [validSimple, not_lt.mpr h]
    · simp [validSimple, not_le.mpr h]
  simp only [List.all_eq_false]
  exact ⟨m, hm, by simp [hms]⟩

/-- C3: for every compatible scatterer (or cluster) with a member of
negative or zero radius, or of size parameter over the feasibility ceiling,
each calc operation fails with UnrealizableScatterer — for every engine, so
before any series evaluation is attempted and with no partial computation. -/
theorem c3_unrealizable_rejected (e : Engine) (sc : Scatterer) (sch : Schema)
    (scaling wl : ℚ) (psc : ℚ × ℚ) (m : SimpleScatterer)
    (hc : compatible e.theory sc = true)
    (hps : sch.optics.pixelScale = some psc)
    (hwl : sch.optics.wavelen = some wl)
    (hm : m ∈ memberList sc)
    (hbad : radiusOf m ≤ 0 ∨
      sizeParCeiling < sizeParProxy wl sch.optics.index (radiusOf m)) :
    calcField e sc sch = .error .unrealizableScatterer ∧
    calcIntensity e sc sch = .error .unrealizableScatterer ∧
    calcHolo e sc sch scaling = .error .unrealizableScatterer := by
  have hv := validScatterer_false_of_bad_member wl sch.optics.index sc m hm hbad
  refine ⟨?_, ?_, ?_⟩ <;>
    simp [calcField, calcIntensity, calcHolo, calcPipeline, pipelineGate, hc, hps, hwl,
      hv, Except.map]

/-- Concrete instantiation of `c3_unrealizable_rejected`: the r = 1 m sphere
of the tests (size parameter far over the ceiling) and a cluster member of
negative radius. -/
theorem c3_unrealizable_rejected_witness :
    calcHolo (mieEngine (fun _ _ => vZero)) (.simple (.sphere ⟨(159 / 100, 0), 1, (0, 0, 0)⟩))
        sch0 (6 / 10) = .error .unrealizableScatterer ∧
    calcHolo (msEngine msDefault num0)
        (.cluster [.sphere { sp0 with r := -1 }, .sphere sp0]) sch0 (6 / 10) =
      .error .unrealizableScatterer := by
  constructor
  · exact (c3_unrealizable_rejected (mieEngine (fun _ _ => vZero))
      (.simple (.sphere ⟨(159 / 100, 0), 1, (0, 0, 0)⟩)) sch0 (6 / 10)
      (658 / 1000000000) (1151 / 10000000000, 1151 / 10000000000)
      (.sphere ⟨(159 / 100, 0), 1, (0, 0, 0)⟩) rfl rfl rfl (by simp [memberList])
      (Or.inr (by norm_num [sizeParCeiling, sizeParProxy, radiusOf, sch0, optics0]))).2.2
  · exact (c3_unrealizable_rejected (msEngine msDefault num0)
      (.cluster [.sphere { sp0 with r := -1 }, .sphere sp0]) sch0 (6 / 10)
      (658 / 1000000000) (1151 / 10000000000, 1151 / 10000000000)
      (.sphere { sp0 with r := -1 }) rfl rfl rfl (by simp [memberList])
      (Or.inl (by norm_num [radiusOf]))).2.2

/-! ### C7: missing optics configuration surfaces at use, not construction -/

/-- C7: an operation needing an optics attribute that was never supplied
fails at the point of use with the matching configuration error
(PixelScaleNotSpecified / WavelengthNotSpecified); schema and theory values
lacking the attribute are themselves constructible (construction is total in
the model, so it cannot raise). -/
theorem c7_missing_configuration (e : Engine) (sc : Scatterer) (sch sch' : Schema)
    (scaling : ℚ) (psc : ℚ × ℚ)
    (hc : compatible e.theory sc = true)
    (hps : sch.optics.pixelScale = none)
    (hps' : sch'.optics.pixelScale = some psc)
    (hwl' : sch'.optics.wavelen = none) :
    (calcField e sc sch = .error .pixelScaleNotSpecified ∧
     calcIntensity e sc sch = .error .pixelScaleNotSpecified ∧
     calcHolo e sc sch scaling = .error .pixelScaleNotSpecified) ∧
    (calcField e sc sch' = .error .wavelengthNotSpecified ∧
     calcIntensity e sc sch' = .error .wavelengthNotSpecified ∧
     calcHolo e sc sch' scaling = .error .wavelengthNotSpecified) := by
  constructor
  · refine ⟨?_, ?_, ?_⟩ <;>
      simp [calcField, calcIntensity, calcHolo, calcPipeline, pipelineGate, hc, hps,
        Except.map]
  · refine ⟨?_, ?_, ?_⟩ <;>
      simp [calcField, calcIntensity, calcHolo, calcPipeline, pipelineGate, hc, hps',
        hwl', Except.map]

/-- Concrete instantiation of `c7_missing_configuration`: the Mie theory
built without optics knows no pixel scale, so hologram calculation for a
valid sphere fails at use time. -/
theorem c7_missing_configuration_witness :
    calcHolo (mieEngine (fun _ _ => vZero)) (.simple (.sphere sp0))
        { sch0 with optics := { optics0 with pixelScale := none } } (6 / 10) =
      .error .pixelScaleNotSpecified ∧
    calcField (mieEngine (fun _ _ => vZero)) (.simple (.sphere sp0))
        { sch0 with optics := { optics0 with wavelen := none } } =
      .error .wavelengthNotSpecified := by
  exact ⟨(c7_missing_configuration (mieEngine (fun _ _ => vZero)) (.simple (.sphere sp0))
      { sch0 with optics := { optics0 with pixelScale := none } }
      { sch0 with optics := { optics0 with wavelen := none } } (6 / 10)
      (1151 / 10000000000, 1151 / 10000000000) rfl rfl rfl rfl).1.2.2,
    (c7_missing_configuration (mieEngine (fun _ _ => vZero)) (.simple (.sphere sp0))
      { sch0 with optics := { optics0 with pixelScale := none } }
      { sch0 with optics := { optics0 with wavelen := none } } (6 / 10)
      (1151 / 10000000000, 1151 / 10000000000) rfl rfl rfl rfl).2.1⟩

/-! ### C4: selection-subsampled computation matches the full grid -/

/-- Unfolding one sample of the selection-masked evaluation. -/
theorem maskedEval_cons {α : Type} (f : Pos → α) (p : Pos) (ps : List Pos)
    (b : Bool) (sel : List Bool) (d : α) :
    maskedEval f (p :: ps) (b :: sel) d =
      (if b then f p else d) :: maskedEval f ps sel d := by
  cases b <;> simp [maskedEval, computeSelected, placeBack, List.zip]

/-- At every selected index, the masked evaluation holds exactly the
per-position value. -/
theorem maskedEval_getElem {α : Type} (f : Pos → α) (d : α) :
    ∀ (ps : List Pos) (sel : List Bool) (i : ℕ) (p : Pos),
      ps[i]? = some p → sel[i]? = some true →
      (maskedEval f ps sel d)[i]? = some (f p) := by
  intro ps
  induction ps with
  | nil => intro sel i p hp _; simp at hp
  | cons q qs ih =>
    intro sel i p hp hs
    cases sel with
    | nil => simp at hs
    | cons b bs =>
      rw [maskedEval_cons]
      cases i with
      | zero =>
        simp at hp hs
        simp [hp, hs]
      | succ j =>
        simp only [List.getElem?_cons_succ] at hp hs ⊢
        exact ih bs j p hp hs

/-- Indexing a replicated mask. -/
theorem replicate_getElem_true : ∀ (n i : ℕ), i < n →
    (List.replicate n true)[i]? = some true := by
  intro n
  induction n with
  | zero => intro i hi; omega
  | succ m ih =>
    intro i hi
    cases i with
    | zero => simp [List.replicate]
    | succ j => simpa [List.replicate] using ih j (by omega)

/-- Success of the pipeline forces the success path: the checks passed, the
engine solved, and the output is the masked evaluation of its field. -/
theorem calcPipeline_ok {α : Type} (e : Engine) (sc : Scatterer) (sch : Schema)
    (post : (Pos → Vec3) → Pos → α) (d : α) (out : List α)
    (h : calcPipeline e sc sch post d = .ok out) :
    ∃ f, pipelineGate e sc sch = .ok f ∧
      out = maskedEval (post f) sch.positions sch.selection d := by
  rcases hg : pipelineGate e sc sch with err | f
  · simp [calcPipeline, hg, Except.map] at h
  · refine ⟨f, rfl, ?_⟩
    simp [calcPipeline, hg, Except.map] at h
    exact h.symm

/-- The dispatcher's checks read only the schema's optics, not its sampling
data. -/
theorem pipelineGate_optics (e : Engine) (sc : Scatterer) (sch sch' : Schema)
    (h : sch.optics = sch'.optics) : pipelineGate e sc sch = pipelineGate e sc sch' := by
  simp [pipelineGate, h]

/-- C4: for every engine (Mie or Multisphere), whenever the hologram is
computed once through a schema carrying a selection mask and once on the
full grid with the same positions and optics, the two results agree exactly
at every selected sample position. -/
theorem c4_selection_matches_full (e : Engine) (sc : Scatterer) (ps : List Pos)
    (sel : List Bool) (o : Optics) (scaling : ℚ) (subsetHolo fullHolo : List ℚ)
    (hsub : calcHolo e sc ⟨ps, sel, o⟩ scaling = .ok subsetHolo)
    (hfull : calcHolo e sc ⟨ps, List.replicate ps.length true, o⟩ scaling = .ok fullHolo)
    (i : ℕ) (hi : sel[i]? = some true) (hip : i < ps.length) :
    subsetHolo[i]? = fullHolo[i]? := by
  obtain ⟨f, hf, hout⟩ := calcPipeline_ok e sc _ _ _ _ hsub
  obtain ⟨f', hf', hout'⟩ := calcPipeline_ok e sc _ _ _ _ hfull
  rw [pipelineGate_optics e sc ⟨ps, sel, o⟩
    ⟨ps, List.replicate ps.length true, o⟩ rfl] at hf
  rw [hf] at hf'
  have hff : f = f' := by injection hf'
  subst hff hout hout'
  have hp : ps[i]? = some (ps.get ⟨i, hip⟩) := by
    simp [List.getElem?_eq_getElem hip]
  rw [maskedEval_getElem _ _ ps sel i _ hp hi,
    maskedEval_getElem _ _ ps (List.replicate ps.length true) i _ hp
      (replicate_getElem_true _ _ hip)]

/-- A simple position-dependent stand-in field kernel for concrete
instantiations. -/
def kern4 : SphereData → Pos → Vec3 := fun _ p => (⟨p.1, 0⟩, ⟨0, 0⟩, ⟨0, 0⟩)

/-- Concrete instantiation of `c4_selection_matches_full`: a two-sample
schema with only the second sample selected. -/
theorem c4_selection_matches_full_witness :
    ∃ subsetHolo fullHolo : List ℚ,
      calcHolo (mieEngine kern4) (.simple (.sphere sp0))
          ⟨[(0, 0, 0), (1, 0, 0)], [false, true], optics0⟩ (6 / 10) =
        .ok subsetHolo ∧
      calcHolo (mieEngine kern4) (.simple (.sphere sp0))
          ⟨[(0, 0, 0), (1, 0, 0)], List.replicate 2 true, optics0⟩ (6 / 10) =
        .ok fullHolo ∧
      subsetHolo[1]? = fullHolo[1]? := by
  have hsub : calcHolo (mieEngine kern4) (.simple (.sphere sp0))
      ⟨[(0, 0, 0), (1, 0, 0)], [false, true], optics0⟩ (6 / 10) = .ok [0, 64 / 25] := by
    norm_num [calcHolo, calcPipeline, pipelineGate, mieEngine, MieTheory, compatible, offendingType,
      optics0, validScatterer, validSimple, sizeParProxy, radiusOf, sizeParCeiling, sp0,
      maskedEval, computeSelected, placeBack, List.zip, holoPix, vecNormSq, vAdd, vSmul,
      Cx.add, Cx.smul, Cx.normSq, refWave, vZero, sphereMembers, kern4, Except.map]
  have hfull : calcHolo (mieEngine kern4) (.simple (.sphere sp0))
      ⟨[(0, 0, 0), (1, 0, 0)], List.replicate 2 true, optics0⟩ (6 / 10) =
      .ok [1, 64 / 25] := by
    norm_num [calcHolo, calcPipeline, pipelineGate, mieEngine, MieTheory, compatible, offendingType,
      optics0, validScatterer, validSimple, sizeParProxy, radiusOf, sizeParCeiling, sp0,
      maskedEval, computeSelected, placeBack, List.zip, List.replicate, holoPix,
      vecNormSq, vAdd, vSmul, Cx.add, Cx.smul, Cx.normSq, refWave, vZero,
      sphereMembers, kern4, Except.map]
  refine ⟨[0, 64 / 25], [1, 64 / 25], hsub, hfull, ?_⟩
  exact c4_selection_matches_full (mieEngine kern4) (.simple (.sphere sp0))
    [(0, 0, 0), (1, 0, 0)] [false, true] optics0 (6 / 10) [0, 64 / 25] [1, 64 / 25]
    hsub hfull 1 rfl (by norm_num)

/-! ### C8: intensity is the squared modulus of the field -/

/-- Placing back with a mapped default commutes with mapping the values. -/
theorem placeBack_map {α β : Type} (g : α → β) (d : α) :
    ∀ (sel : List Bool) (vals : List α),
      placeBack (g d) sel (vals.map g) = (placeBack d sel vals).map g := by
  intro sel
  induction sel with
  | nil => intro vals; rfl
  | cons b bs ih =>
    intro vals
    cases b with
    | true =>
      cases vals with
      | nil => simpa [placeBack] using ih []
      | cons v vs => simpa [placeBack] using ih vs
    | false => simpa [placeBack] using ih vals

/-- Selected-position computation of a postprocessed field is the
postprocessing of the computed field values. -/
theorem computeSelected_map {α β : Type} (g : α → β) (f : Pos → α) :
    ∀ pb : List (Pos × Bool),
      computeSelected (fun p => g (f p)) pb = (computeSelected f pb).map g := by
  intro pb
  induction pb with
  | nil => rfl
  | cons x rest ih => cases hx : x.2 <;> simp [computeSelected, hx, ih]

/-- Masked evaluation of a postprocessed field is the postprocessing of the
masked field evaluation, provided the defaults agree. -/
theorem maskedEval_map {α β : Type} (g : α → β) (f : Pos → α) (ps : List Pos)
    (sel : List Bool) (d : α) :
    maskedEval (fun p => g (f p)) ps sel (g d) = (maskedEval f ps sel d).map g := by
  rw [maskedEval, maskedEval, computeSelected_map, placeBack_map]

/-- The zero field has zero intensity. -/
theorem vecNormSq_vZero : vecNormSq vZero = 0 := by
  norm_num [vecNormSq, vZero, Cx.normSq]

/-- C8: for every sphere and schema for which the field computation
succeeds, the intensity computation succeeds as well and returns exactly the
elementwise squared modulus of the field array (this holds for every
engine). -/
theorem c8_intensity_is_normSq_field (e : Engine) (s : SphereData) (sch : Schema)
    (fields : List Vec3)
    (hf : calcField e (.simple (.sphere s)) sch = .ok fields) :
    calcIntensity e (.simple (.sphere s)) sch = .ok (fields.map vecNormSq) := by
  obtain ⟨f, hg, hout⟩ := calcPipeline_ok e _ sch _ _ _ hf
  have : calcIntensity e (.simple (.sphere s)) sch =
      .ok (maskedEval (fun p => vecNormSq (f p)) sch.positions sch.selection 0) := by
    simp [calcIntensity, calcPipeline, hg, Except.map]
  rw [this, hout]
  rw [← vecNormSq_vZero, maskedEval_map]

/-- Concrete instantiation of `c8_intensity_is_normSq_field`: the one-sample
test schema. -/
theorem c8_intensity_is_normSq_field_witness :
    calcField (mieEngine kern4) (.simple (.sphere sp0)) sch0 =
      .ok [(⟨0, 0⟩, ⟨0, 0⟩, ⟨0, 0⟩)] ∧
    calcIntensity (mieEngine kern4) (.simple (.sphere sp0)) sch0 =
      .ok ([((⟨0, 0⟩, ⟨0, 0⟩, ⟨0, 0⟩) : Vec3)].map vecNormSq) := by
  have hf : calcField (mieEngine kern4) (.simple (.sphere sp0)) sch0 =
      .ok [(⟨0, 0⟩, ⟨0, 0⟩, ⟨0, 0⟩)] := by
    norm_num [calcField, calcPipeline, pipelineGate, mieEngine, MieTheory, compatible,
      offendingType, sch0, optics0, validScatterer, validSimple, sizeParProxy, radiusOf,
      sizeParCeiling, sp0, maskedEval, computeSelected, placeBack, List.zip, vAdd,
      Cx.add, vZero, sphereMembers, kern4, Except.map]
  exact ⟨hf, c8_intensity_is_normSq_field (mieEngine kern4) sp0 sch0 _ hf⟩

/-! ### C5: iteration cap and convergence failure -/

/-- A successful gate means the checks passed and the engine's solve
succeeded. -/
theorem pipelineGate_ok (e : Engine) (sc : Scatterer) (sch : Schema) (f : Pos → Vec3)
    (h : pipelineGate e sc sch = .ok f) : e.solve sc = .ok f := by
  by_cases hc : compatible e.theory sc = false
  · simp [pipelineGate, hc] at h
  · rcases hps : sch.optics.pixelScale with _ | psc
    · simp [pipelineGate, hc, hps] at h
    · rcases hwl : sch.optics.wavelen with _ | wl
      · simp [pipelineGate, hc, hps, hwl] at h
      · by_cases hv : validScatterer wl sch.optics.index sc = false
        · simp [pipelineGate, hc, hps, hwl, hv] at h
        · simpa [pipelineGate, hc, hps, hwl, hv] using h

/-- If every residual within the iteration budget stays above the tolerance
(and no iteration produces non-finite values), the solve exhausts its
budget. -/
theorem msIterate_exhausted (num : MSNumerics) (eps : ℚ) :
    ∀ (fuel i : ℕ), (∀ j, j < fuel → eps < num.residual (i + j)) →
      (∀ j, num.nanAt j = false) → msIterate num eps i fuel = .exhausted := by
  intro fuel
  induction fuel with
  | zero => intro i _ _; rfl
  | succ fuel ih =>
    intro i hres hnan
    have h0 : eps < num.residual i := by simpa using hres 0 (by omega)
    rw [msIterate, hnan i, if_neg (by simp), if_neg (by simp [not_le.mpr h0])]
    exact ih (i + 1) (fun j hj => by
      have := hres (j + 1) (by omega)
      simpa [Nat.add_assoc, Nat.add_comm 1 j] using this) hnan

/-- If some residual within the iteration budget meets the tolerance (and no
iteration produces non-finite values), the solve converges. -/
theorem msIterate_converges (num : MSNumerics) (eps : ℚ) :
    ∀ (fuel i k : ℕ), k < fuel → num.residual (i + k) ≤ eps →
      (∀ j, num.nanAt j = false) →
      ∃ m, msIterate num eps i fuel = .converged m := by
  intro fuel
  induction fuel with
  | zero => intro i k hk _ _; omega
  | succ fuel ih =>
    intro i k hk hres hnan
    rw [msIterate, hnan i, if_neg (by simp)]
    by_cases h0 : num.residual i ≤ eps
    · exact ⟨i, by simp [h0]⟩
    · cases k with
      | zero => simp at hres; exact absurd hres h0
      | succ k' =>
        rw [if_neg (by simp [h0])]
        exact ih (i + 1) k' (by omega)
          (by simpa [Nat.add_assoc, Nat.add_comm 1 k'] using hres) hnan

/-- C5: on a two-sphere configuration whose solve needs more than 2
iterations but converges within the default budget, a Multisphere theory
with `niter = 2` fails with ConvergenceFailureMultisphere from `calc_holo`,
while the same call with the default `niter` succeeds; and for every
configuration, a successful `calc_holo` implies the solve actually reached
the Converged state (no partially-converged result is ever returned). -/
theorem c5_niter_convergence (num : MSNumerics) (sc : Scatterer) (sch : Schema)
    (scaling wl : ℚ) (psc : ℚ × ℚ) (k : ℕ)
    (hc : compatible MultisphereTheory sc = true)
    (hps : sch.optics.pixelScale = some psc)
    (hwl : sch.optics.wavelen = some wl)
    (hv : validScatterer wl sch.optics.index sc = true)
    (hnan : ∀ j, num.nanAt j = false)
    (hneed : ∀ j, j < 2 → msDefault.eps < num.residual j)
    (hk : k < msDefault.niter) (hconv : num.residual k ≤ msDefault.eps) :
    calcHolo (msEngine { msDefault with niter := 2 } num) sc sch scaling =
      .error .convergenceFailureMultisphere ∧
    (∃ holo, calcHolo (msEngine msDefault num) sc sch scaling = .ok holo) ∧
    (∀ (cfg : MSConfig) (out : List ℚ),
      calcHolo (msEngine cfg num) sc sch scaling = .ok out →
      ∃ m, msSolve cfg num = .converged m) := by
  refine ⟨?_, ?_, ?_⟩
  · have hsolve : msSolve { msDefault with niter := 2 } num = .exhausted :=
      msIterate_exhausted num _ 2 0 (fun j hj => by simpa using hneed j hj) hnan
    simp [calcHolo, calcPipeline, pipelineGate, msEngine, hc, hps, hwl, hv, hsolve,
      Except.map]
  · obtain ⟨m, hm⟩ := msIterate_converges num msDefault.eps msDefault.niter 0 k hk
      (by simpa using hconv) hnan
    have hsolve : msSolve msDefault num = .converged m := hm
    refine ⟨maskedEval (fun p => holoPix scaling (num.field (sphereMembers sc) p))
      sch.positions sch.selection 0, ?_⟩
    simp [calcHolo, calcPipeline, pipelineGate, msEngine, hc, hps, hwl, hv, hsolve,
      Except.map]
  · intro cfg out hout
    obtain ⟨f, hg, _⟩ := calcPipeline_ok _ _ _ _ _ _ hout
    have hs := pipelineGate_ok _ _ _ _ hg
    rcases hms : msSolve cfg num with m | _ | _
    · exact ⟨m, rfl⟩
    · simp [msEngine, hms] at hs
    · simp [msEngine, hms] at hs

/-- Concrete instantiation of `c5_niter_convergence`: residuals above the
tolerance for the first two iterations, converged at the third. -/
theorem c5_niter_convergence_witness :
    calcHolo (msEngine { msDefault with niter := 2 }
        ⟨fun j => if j < 2 then 1 else 0, fun _ => false, fun _ _ => vZero⟩)
      (.cluster [.sphere sp0, .sphere sp0]) sch0 (6 / 10) =
      .error .convergenceFailureMultisphere ∧
    (∃ holo, calcHolo (msEngine msDefault
        ⟨fun j => if j < 2 then 1 else 0, fun _ => false, fun _ _ => vZero⟩)
      (.cluster [.sphere sp0, .sphere sp0]) sch0 (6 / 10) = .ok holo) := by
  have h := c5_niter_convergence
    ⟨fun j => if j < 2 then 1 else 0, fun _ => false, fun _ _ => vZero⟩
    (.cluster [.sphere sp0, .sphere sp0]) sch0 (6 / 10) (658 / 1000000000)
    (1151 / 10000000000, 1151 / 10000000000) 2 rfl rfl rfl
    (by norm_num [validScatterer, validSimple, sizeParProxy, radiusOf, sizeParCeiling,
      sp0, sch0, optics0, List.all])
    (fun _ => rfl)
    (fun j hj => by
      simp only [hj, if_pos]
      norm_num [msDefault])
    (by norm_num [msDefault]) (by norm_num [msDefault])
  exact ⟨h.1, h.2.1⟩

/-! ### C6: overlapping cluster members -/

/-- Squared distance between two centers. -/
def distSq (a b : ℚ × ℚ × ℚ) : ℚ :=
  (a.1 - b.1) ^ 2 + (a.2.1 - b.2.1) ^ 2 + (a.2.2 - b.2.2) ^ 2

/-- Geometric overlap of two spheres: center distance below the sum of the
radii. -/
def spheresOverlap (a b : SphereData) : Bool :=
  decide (distSq a.center b.center < (a.r + b.r) ^ 2)

/-- Non-fatal warnings the scatterer layer can raise. -/
inductive Warning
  | overlapWarning (i j : ℕ)
deriving DecidableEq

/-- All overlap warnings for a member list: one per ordered overlapping
pair. -/
def overlapWarnings (ms : List SphereData) : List Warning :=
  (withIdx 0 ms).flatMap (fun p =>
    (withIdx 0 ms).filterMap (fun q =>
      if p.1 < q.1 ∧ spheresOverlap p.2 q.2 = true then
        some (.overlapWarning p.1 q.1)
      else none))

/-- Modelled from the spec: the `Spheres` cluster constructor — it checks
every pair for geometric overlap, raises non-fatal OverlapWarnings, and
always returns the cluster. -/
def mkSpheres (ms : List SphereData) : Scatterer × List Warning :=
  (.cluster (ms.map .sphere), overlapWarnings ms)

/-- Indexing into `withIdx`. -/
theorem withIdx_mem {α : Type} :
    ∀ (ms : List α) (i0 i : ℕ) (x : α), ms[i]? = some x →
      (i0 + i, x) ∈ withIdx i0 ms := by
  intro ms
  induction ms with
  | nil => intro i0 i x h; simp at h
  | cons a as ih =>
    intro i0 i x h
    cases i with
    | zero =>
      simp at h
      simp [withIdx, h]
    | succ j =>
      simp only [List.getElem?_cons_succ] at h
      have := ih (i0 + 1) j x h
      simp only [withIdx, List.mem_cons]
      right
      convert this using 2
      omega

/-- An iteration with non-finite intermediates at the start diverges. -/
theorem msIterate_nan_first (num : MSNumerics) (eps : ℚ) (fuel i : ℕ)
    (hfuel : 0 < fuel) (hnan : num.nanAt i = true) :
    msIterate num eps i fuel = .nanDiverged := by
  cases fuel with
  | zero => omega
  | succ f => simp [msIterate, hnan]

/-- An iteration whose first residual already meets the tolerance converges
immediately. -/
theorem msIterate_res_first (num : MSNumerics) (eps : ℚ) (fuel i : ℕ)
    (hfuel : 0 < fuel) (hnan : num.nanAt i = false)
    (hres : num.residual i ≤ eps) :
    msIterate num eps i fuel = .converged i := by
  cases fuel with
  | zero => omega
  | succ f => simp [msIterate, hnan, hres]

/-- C6 (amended): whenever two cluster members geometrically overlap, the
cluster constructor raises a non-fatal OverlapWarning and still returns the
cluster; with small overlap the Multisphere hologram calculation still
succeeds once the solve converges; and when the solve fails on an
overlapping cluster, the failure is exactly the solver's outcome —
MultisphereExpansionNaN on non-finite intermediates (the observed behaviour
for overlap beyond the allowed fraction), ConvergenceFailureMultisphere on
an exhausted budget — never an overlap-specific error. -/
theorem c6_overlap_warning_and_failure (ms : List SphereData) (i j : ℕ)
    (si sj : SphereData) (sch : Schema) (num : MSNumerics) (cfg : MSConfig)
    (scaling wl : ℚ) (psc : ℚ × ℚ)
    (hi : ms[i]? = some si) (hj : ms[j]? = some sj) (hij : i < j)
    (hov : spheresOverlap si sj = true)
    (hps : sch.optics.pixelScale = some psc)
    (hwl : sch.optics.wavelen = some wl)
    (hv : validScatterer wl sch.optics.index (mkSpheres ms).1 = true) :
    Warning.overlapWarning i j ∈ (mkSpheres ms).2 ∧
    (mkSpheres ms).1 = .cluster (ms.map .sphere) ∧
    (∀ m, msSolve cfg num = .converged m →
      calcHolo (msEngine cfg num) (mkSpheres ms).1 sch scaling =
        .ok (maskedEval (fun p => holoPix scaling
          (num.field (sphereMembers (mkSpheres ms).1) p)) sch.positions sch.selection 0)) ∧
    (msSolve cfg num = .nanDiverged →
      calcHolo (msEngine cfg num) (mkSpheres ms).1 sch scaling =
        .error .multisphereExpansionNaN) ∧
    (msSolve cfg num = .exhausted →
      calcHolo (msEngine cfg num) (mkSpheres ms).1 sch scaling =
        .error .convergenceFailureMultisphere) := by
  have hc : compatible MultisphereTheory (mkSpheres ms).1 = true := by
    simp only [mkSpheres, compatible, List.all_eq_true]
    intro x hx
    obtain ⟨s, _, rfl⟩ := List.mem_map.1 hx
    rfl
  refine ⟨?_, rfl, ?_, ?_, ?_⟩
  · simp only [mkSpheres, overlapWarnings, List.mem_flatMap]
    refine ⟨(i, si), by simpa using withIdx_mem ms 0 i si hi, ?_⟩
    simp only [List.mem_filterMap]
    refine ⟨(j, sj), by simpa using withIdx_mem ms 0 j sj hj, ?_⟩
    simp [hij, hov]
  · intro m hm
    simp [calcHolo, calcPipeline, pipelineGate, msEngine, hc, hps, hwl, hv, hm,
      Except.map]
  · intro hm
    simp [calcHolo, calcPipeline, pipelineGate, msEngine, hc, hps, hwl, hv, hm,
      Except.map]
  · intro hm
    simp [calcHolo, calcPipeline, pipelineGate, msEngine, hc, hps, hwl, hv, hm,
      Except.map]

/-- Heavily overlapping pair of the overlap test (centers 0.4 µm apart,
radii 0.5 µm). -/
def s6a : SphereData := ⟨(159 / 100, 0), 5 / 10000000, (3 / 1000000, 3 / 1000000, 1 / 100000)⟩

/-- Second sphere of the heavy-overlap pair. -/
def s6b : SphereData := ⟨(159 / 100, 0), 5 / 10000000, (17 / 5000000, 3 / 1000000, 1 / 100000)⟩

/-- Second sphere of the small-overlap pair (centers 0.9 µm apart). -/
def s6c : SphereData := ⟨(159 / 100, 0), 5 / 10000000, (39 / 10000000, 3 / 1000000, 1 / 100000)⟩

/-- Solver numerics exhibiting non-finite intermediates from the first
iteration, as the overlap test observes for the heavily overlapping pair. -/
def num6 : MSNumerics := ⟨fun _ => 0, fun _ => true, fun _ _ => vZero⟩

/-- C6 counterexample: on the heavily overlapping two-sphere configuration
of the overlap test, the failing hologram calculation surfaces as
MultisphereExpansionNaN — not as a convergence failure, contradicting the
claim's stated failure kind. -/
theorem c6_overlap_counterexample :
    spheresOverlap s6a s6b = true ∧
    calcHolo (msEngine msDefault num6) (mkSpheres [s6a, s6b]).1 sch0 (6 / 10) =
      .error .multisphereExpansionNaN ∧
    calcHolo (msEngine msDefault num6) (mkSpheres [s6a, s6b]).1 sch0 (6 / 10) ≠
      .error .convergenceFailureMultisphere := by
  have hsolve : msSolve msDefault num6 = .nanDiverged :=
    msIterate_nan_first num6 msDefault.eps msDefault.niter 0
      (by norm_num [msDefault]) rfl
  have hov : spheresOverlap s6a s6b = true := by
    norm_num [spheresOverlap, distSq, s6a, s6b]
  have hv : validScatterer (658 / 1000000000) ((133 : ℚ) / 100) (mkSpheres [s6a, s6b]).1 =
      true := by
    norm_num [mkSpheres, validScatterer, validSimple, sizeParProxy, radiusOf,
      sizeParCeiling, s6a, s6b, List.all]
  have hcalc : calcHolo (msEngine msDefault num6) (mkSpheres [s6a, s6b]).1 sch0 (6 / 10) =
      .error .multisphereExpansionNaN :=
    (c6_overlap_warning_and_failure [s6a, s6b] 0 1 s6a s6b sch0 num6 msDefault
      (6 / 10) (658 / 1000000000) (1151 / 10000000000, 1151 / 10000000000)
      rfl rfl (by omega) hov rfl rfl hv).2.2.2.1 hsolve
  exact ⟨hov, hcalc, by rw [hcalc]; simp⟩

/-- Concrete instantiation of `c6_overlap_warning_and_failure`: the
small-overlap pair still warns, and its hologram calculation succeeds with
converging solver numerics. -/
theorem c6_overlap_warning_and_failure_witness :
    Warning.overlapWarning 0 1 ∈ (mkSpheres [s6a, s6c]).2 ∧
    calcHolo (msEngine msDefault num0) (mkSpheres [s6a, s6c]).1 sch0 (6 / 10) =
      .ok (maskedEval (fun p => holoPix (6 / 10)
        (num0.field (sphereMembers (mkSpheres [s6a, s6c]).1) p))
        sch0.positions sch0.selection 0) := by
  have hov : spheresOverlap s6a s6c = true := by
    norm_num [spheresOverlap, distSq, s6a, s6c]
  have hv : validScatterer (658 / 1000000000) ((133 : ℚ) / 100) (mkSpheres [s6a, s6c]).1 =
      true := by
    norm_num [mkSpheres, validScatterer, validSimple, sizeParProxy, radiusOf,
      sizeParCeiling, s6a, s6c, List.all]
  have h := c6_overlap_warning_and_failure [s6a, s6c] 0 1 s6a s6c sch0 num0 msDefault
    (6 / 10) (658 / 1000000000) (1151 / 10000000000, 1151 / 10000000000)
    rfl rfl (by omega) hov rfl rfl hv
  exact ⟨h.1, h.2.2.1 0 (msIterate_res_first num0 msDefault.eps msDefault.niter 0
    (by norm_num [msDefault]) rfl (by norm_num [num0, msDefault]))⟩

/-! ### C9: hologram linearity for point-like scatterers, and its failure at
wavelength scale -/

/-- Superposing with the zero field is the identity. -/
theorem vAdd_vZero (v : Vec3) : vAdd vZero v = v := by
  obtain ⟨⟨a, b⟩, ⟨c, d⟩, ⟨e, f⟩⟩ := v
  simp [vAdd, vZero, Cx.add]

/-- With the full selection mask, masked evaluation is a plain map. -/
theorem maskedEval_full {α : Type} (f : Pos → α) (d : α) :
    ∀ ps : List Pos, maskedEval f ps (List.replicate ps.length true) d = ps.map f := by
  intro ps
  induction ps with
  | nil => rfl
  | cons p rest ih =>
    rw [List.length_cons, List.replicate, maskedEval_cons, ih]
    simp

/-- Exact per-pixel interference algebra: the deviation of the cluster
hologram from the superposition of the member holograms is the scaled cross
term of the two fields. -/
theorem holoPix_super (scaling : ℚ) (a b : Vec3) :
    holoPix scaling (vAdd a b) - holoPix scaling a + 1 - holoPix scaling b =
      2 * scaling ^ 2 *
        (cxDot a.1 b.1 + cxDot a.2.1 b.2.1 + cxDot a.2.2 b.2.2) := by
  obtain ⟨⟨a1, a2⟩, ⟨a3, a4⟩, ⟨a5, a6⟩⟩ := a
  obtain ⟨⟨b1, b2⟩, ⟨b3, b4⟩, ⟨b5, b6⟩⟩ := b
  simp only [holoPix, vecNormSq, vAdd, vSmul, Cx.add, Cx.smul, Cx.normSq, refWave, cxDot]
  ring

/-- Cauchy-Schwarz for the cross term of two field components. -/
theorem cxDot_sq_le (a b : Cx) : cxDot a b ^ 2 ≤ Cx.normSq a * Cx.normSq b := by
  obtain ⟨p, q⟩ := a
  obtain ⟨r, s⟩ := b
  simp only [cxDot, Cx.normSq]
  nlinarith [sq_nonneg (p * s - q * r)]

/-- The squared modulus is nonnegative. -/
theorem normSq_nonneg (a : Cx) : 0 ≤ Cx.normSq a := by
  obtain ⟨p, q⟩ := a
  simp only [Cx.normSq]
  nlinarith [mul_self_nonneg p, mul_self_nonneg q]

/-- A cross term of two components of squared modulus at most `ε` lies in
`[-ε, ε]`. -/
theorem cxDot_abs_le (a b : Cx) (ε : ℚ) (ha : Cx.normSq a ≤ ε) (hb : Cx.normSq b ≤ ε) :
    -ε ≤ cxDot a b ∧ cxDot a b ≤ ε := by
  have hε : 0 ≤ ε := le_trans (normSq_nonneg a) ha
  have hcs := cxDot_sq_le a b
  have hsq : cxDot a b ^ 2 ≤ ε ^ 2 := by
    nlinarith [normSq_nonneg a, normSq_nonneg b]
  constructor <;> nlinarith [hsq, hε]

/-- Componentwise smallness of two field values. -/
def smallField (ε : ℚ) (v : Vec3) : Prop :=
  Cx.normSq v.1 ≤ ε ∧ Cx.normSq v.2.1 ≤ ε ∧ Cx.normSq v.2.2 ≤ ε

/-- Per-pixel deviation bound: when both fields are componentwise small, the
linearity deviation is quadratically small. -/
theorem holoPix_dev_bound (scaling ε : ℚ) (a b : Vec3)
    (ha : smallField ε a) (hb : smallField ε b) :
    (holoPix scaling (vAdd a b) - holoPix scaling a + 1 - holoPix scaling b) ^ 2 ≤
      36 * scaling ^ 4 * ε ^ 2 := by
  rw [holoPix_super]
  obtain ⟨h1a, h2a, h3a⟩ := ha
  obtain ⟨h1b, h2b, h3b⟩ := hb
  obtain ⟨l1, u1⟩ := cxDot_abs_le a.1 b.1 ε h1a h1b
  obtain ⟨l2, u2⟩ := cxDot_abs_le a.2.1 b.2.1 ε h2a h2b
  obtain ⟨l3, u3⟩ := cxDot_abs_le a.2.2 b.2.2 ε h3a h3b
  have hε : 0 ≤ ε := le_trans (normSq_nonneg a.1) h1a
  have hsum : (cxDot a.1 b.1 + cxDot a.2.1 b.2.1 + cxDot a.2.2 b.2.2) ^ 2 ≤
      9 * ε ^ 2 := by nlinarith
  have hs4 : 0 ≤ scaling ^ 4 := by positivity
  nlinarith [hsum, hs4, sq_nonneg (cxDot a.1 b.1 + cxDot a.2.1 b.2.1 + cxDot a.2.2 b.2.2)]

/-- Strong stand-in field kernel of a wavelength-scale sphere: unit
amplitude everywhere. -/
def kern9 : SphereData → Pos → Vec3 := fun _ _ => (⟨1, 0⟩, ⟨0, 0⟩, ⟨0, 0⟩)

/-- A wavelength-scale sphere (radius equal to the 658 nm wavelength). -/
def s9 : SphereData := ⟨(159 / 100, 0), 658 / 1000000000, (0, 0, 0)⟩

/-- Second wavelength-scale sphere at a different center. -/
def s9b : SphereData := ⟨(159 / 100, 0), 658 / 1000000000, (1 / 1000000, 0, 0)⟩

/-- C9: over the full grid, the Mie cluster hologram of two spheres equals
per pixel the interference form whose deviation from
`holo_super - holo_1 + 1 = holo_2` is exactly the field cross term; when
both spheres scatter weakly (point-like regime, componentwise `|field|² ≤ ε`
at every position), the deviation is bounded by `36·scaling⁴·ε²` at every
position; and for strong (wavelength-scale) fields the relation fails: on a
concrete configuration the deviation is 2, exceeding the 1/100 tolerance. -/
theorem c9_linearity_pointlike (K : SphereData → Pos → Vec3) (s1 s2 : SphereData)
    (ps : List Pos) (o : Optics) (scaling ε wl : ℚ) (psc : ℚ × ℚ)
    (hps : o.pixelScale = some psc) (hwl : o.wavelen = some wl)
    (hv1 : validSimple wl o.index (.sphere s1) = true)
    (hv2 : validSimple wl o.index (.sphere s2) = true) :
    (calcHolo (mieEngine K) (.cluster [.sphere s1, .sphere s2])
        ⟨ps, List.replicate ps.length true, o⟩ scaling =
      .ok (ps.map (fun p => holoPix scaling (vAdd (K s1 p) (K s2 p)))) ∧
     calcHolo (mieEngine K) (.simple (.sphere s1))
        ⟨ps, List.replicate ps.length true, o⟩ scaling =
      .ok (ps.map (fun p => holoPix scaling (K s1 p))) ∧
     calcHolo (mieEngine K) (.simple (.sphere s2))
        ⟨ps, List.replicate ps.length true, o⟩ scaling =
      .ok (ps.map (fun p => holoPix scaling (K s2 p)))) ∧
    ((∀ p ∈ ps, smallField ε (K s1 p) ∧ smallField ε (K s2 p)) →
      ∀ p ∈ ps,
        (holoPix scaling (vAdd (K s1 p) (K s2 p)) - holoPix scaling (K s1 p) + 1 -
            holoPix scaling (K s2 p)) ^ 2 ≤ 36 * scaling ^ 4 * ε ^ 2) ∧
    (holoPix 1 (vAdd (kern9 s9 (0, 0, 0)) (kern9 s9b (0, 0, 0))) -
        holoPix 1 (kern9 s9 (0, 0, 0)) + 1 - holoPix 1 (kern9 s9b (0, 0, 0)) = 2 ∧
      ¬((2 : ℚ) ≤ 1 / 100)) := by
  refine ⟨⟨?_, ?_, ?_⟩, ?_, ?_, by norm_num⟩
  · have hv : validScatterer wl o.index (.cluster [.sphere s1, .sphere s2]) = true := by
      simp [validScatterer, List.all, hv1, hv2]
    simp [calcHolo, calcPipeline, pipelineGate, mieEngine, MieTheory, compatible,
      hps, hwl, hv, Except.map, maskedEval_full, sphereMembers, vAdd_vZero]
  · have hv : validScatterer wl o.index (.simple (.sphere s1)) = true := by
      simpa [validScatterer] using hv1
    simp [calcHolo, calcPipeline, pipelineGate, mieEngine, MieTheory, compatible,
      hps, hwl, hv, Except.map, maskedEval_full, sphereMembers, vAdd_vZero]
  · have hv : validScatterer wl o.index (.simple (.sphere s2)) = true := by
      simpa [validScatterer] using hv2
    simp [calcHolo, calcPipeline, pipelineGate, mieEngine, MieTheory, compatible,
      hps, hwl, hv, Except.map, maskedEval_full, sphereMembers, vAdd_vZero]
  · intro hsmall p hp
    exact holoPix_dev_bound scaling ε (K s1 p) (K s2 p) (hsmall p hp).1 (hsmall p hp).2
  · norm_num [holoPix, kern9, vAdd, vSmul, Cx.add, Cx.smul, vecNormSq, Cx.normSq, refWave]

/-- Concrete instantiation of `c9_linearity_pointlike`: the zero-field
kernel with ε = 0 at the single sample position of the one-sample schema. -/
theorem c9_linearity_pointlike_witness :
    (holoPix (6 / 10) (vAdd vZero vZero) - holoPix (6 / 10) vZero + 1 -
        holoPix (6 / 10) vZero) ^ 2 ≤ 36 * (6 / 10) ^ 4 * (0 : ℚ) ^ 2 := by
  have hv : validSimple (658 / 1000000000) ((133 : ℚ) / 100) (.sphere sp0) = true := by
    norm_num [validSimple, sizeParProxy, radiusOf, sizeParCeiling, sp0]
  exact (c9_linearity_pointlike (fun _ _ => vZero) sp0 sp0 sch0.positions optics0
      (6 / 10) 0 (658 / 1000000000) (1151 / 10000000000, 1151 / 10000000000)
      rfl rfl hv hv).2.1
    (fun p _ => by
      constructor <;>
        exact ⟨le_of_eq (by norm_num [Cx.normSq, vZero]),
          le_of_eq (by norm_num [Cx.normSq, vZero]),
          le_of_eq (by norm_num [Cx.normSq, vZero])⟩)
    ((0, 0, 0) : Pos) (by simp [sch0])

end Holopy
